import Mathlib

/-!
Shallow embedding of the CHIP-8 emulator core (`src/emu.rs`).

Machine integers are modelled as `Nat` with explicit truncation: `u8`,
`u16`, `u64` below apply the modulus the corresponding Rust type enforces.
Arrays (`v`, `stk`, `ram`, `screen`) are modelled as `Nat → Nat`; every
read of a cell applies the truncation of the cell's Rust type, so states
whose fields are out of range behave exactly like their truncations.
Integer overflow is modelled with wrapping, matching Rust's release
profile; shift amounts are masked the same way.  `Instruction.execute`
returns `Option Chip8`: `none` models a guaranteed Rust panic (an
out-of-bounds array index, or the `unimplemented!()` stub in the LDK arm),
which occurs in every build profile.  The wall clock consumed by
`Chip8::step` is passed in as the number of whole 60 Hz ticks elapsed.
-/

/-- Truncation to an unsigned 8-bit value (Rust `u8`). -/
def u8 (n : Nat) : Nat := n % 256

/-- Truncation to an unsigned 16-bit value (Rust `u16`). -/
def u16 (n : Nat) : Nat := n % 65536

/-- Truncation to an unsigned 64-bit value (Rust `u64`). -/
def u64 (n : Nat) : Nat := n % 18446744073709551616

/-- The machine state, mirroring `struct Chip8` in `src/emu.rs`.
The Rust field `last_dec : Instant` is replaced by passing the elapsed
60 Hz tick count to `Chip8.step`; the boxed `rand::RngCore` is modelled
as an injected byte stream `rng` with a cursor `rngK`. -/
structure Chip8 where
  wrap_tex : Bool
  hp_shift : Bool
  mem_inc : Bool
  rng : Nat → Nat
  rngK : Nat
  v : Nat → Nat
  i : Nat
  dt : Nat
  st : Nat
  pc : Nat
  sp : Nat
  stk : Nat → Nat
  ram : Nat → Nat
  screen : Nat → Nat

/-- The decoded instruction set, mirroring `enum Instruction`.
Operands are `Nat`s standing for the Rust `Addr` (u16, 12-bit), `VReg`
(u8, 4-bit) and immediate (u8) payloads. -/
inductive Instruction where
  | CLS
  | RET
  | JP (addr : Nat)
  | CALL (addr : Nat)
  | SEB (x kk : Nat)
  | SNEB (x kk : Nat)
  | SEV (x y : Nat)
  | LDB (x kk : Nat)
  | ADDB (x kk : Nat)
  | LDV (x y : Nat)
  | OR (x y : Nat)
  | AND (x y : Nat)
  | XOR (x y : Nat)
  | ADDC (x y : Nat)
  | SUB (x y : Nat)
  | SHR (x y : Nat)
  | SUBN (x y : Nat)
  | SHL (x y : Nat)
  | SNEV (x y : Nat)
  | LDI (addr : Nat)
  | JPV (addr : Nat)
  | RND (x kk : Nat)
  | DRW (x y n : Nat)
  | SKP (x : Nat)
  | SKNP (x : Nat)
  | LDVD (x : Nat)
  | LDK (x : Nat)
  | LDDV (x : Nat)
  | LDSV (x : Nat)
  | ADDI (x : Nat)
  | LDIS (x : Nat)
  | LDD (x : Nat)
  | LDMV (x : Nat)
  | LDVM (x : Nat)
deriving DecidableEq

/-- Body of `Instruction::decode` on an already-truncated 16-bit word:
two literal matches for CLS/RET, then classification by high nibble,
then by `0xF00F` and `0xF0FF` masks, exactly as the nested Rust `match`. -/
def decodeW (w : Nat) : Option Instruction :=
  if w = 0x00E0 then some .CLS
  else if w = 0x00EE then some .RET
  else
    let i := w &&& 0xF000
    let i2 := w &&& 0xF00F
    let i3 := w &&& 0xF0FF
    let addr := w &&& 0x0FFF
    let x := (w &&& 0x0F00) >>> 8
    let y := (w &&& 0x00F0) >>> 4
    let kk := w &&& 0x00FF
    if i = 0x0000 then none
    else if i = 0x1000 then some (.JP addr)
    else if i = 0x2000 then some (.CALL addr)
    else if i = 0x3000 then some (.SEB x kk)
    else if i = 0x4000 then some (.SNEB x kk)
    else if i = 0x6000 then some (.LDB x kk)
    else if i = 0x7000 then some (.ADDB x kk)
    else if i = 0xA000 then some (.LDI addr)
    else if i = 0xB000 then some (.JPV addr)
    else if i = 0xC000 then some (.RND x kk)
    else if i = 0xD000 then some (.DRW x y (w &&& 0x000F))
    else if i2 = 0x5000 then some (.SEV x y)
    else if i2 = 0x8000 then some (.LDV x y)
    else if i2 = 0x8001 then some (.OR x y)
    else if i2 = 0x8002 then some (.AND x y)
    else if i2 = 0x8003 then some (.XOR x y)
    else if i2 = 0x8004 then some (.ADDC x y)
    else if i2 = 0x8005 then some (.SUB x y)
    else if i2 = 0x8006 then some (.SHR x y)
    else if i2 = 0x8007 then some (.SUBN x y)
    else if i2 = 0x800E then some (.SHL x y)
    else if i2 = 0x9000 then some (.SNEV x y)
    else if i3 = 0xE09E then some (.SKP x)
    else if i3 = 0xE0A1 then some (.SKNP x)
    else if i3 = 0xF007 then some (.LDVD x)
    else if i3 = 0xF00A then some (.LDK x)
    else if i3 = 0xF015 then some (.LDDV x)
    else if i3 = 0xF018 then some (.LDSV x)
    else if i3 = 0xF01E then some (.ADDI x)
    else if i3 = 0xF029 then some (.LDIS x)
    else if i3 = 0xF033 then some (.LDD x)
    else if i3 = 0xF055 then some (.LDMV x)
    else if i3 = 0xF065 then some (.LDVM x)
    else none

/-- `Instruction::decode(ins: &u16)`: the argument is a 16-bit word. -/
def Instruction.decode (ins : Nat) : Option Instruction := decodeW (u16 ins)

/-- The register-index clamp of `Chip8::get_v`: a `VReg` payload (a `u8`)
is clamped to the last register when it is out of range. -/
def vIdx (n : Nat) : Nat := if u8 n < 16 then u8 n else 15

/-- Read register `Vn` through the `get_v` clamp. -/
def Chip8.rdV (c : Chip8) (n : Nat) : Nat := u8 (c.v (vIdx n))

/-- Write register `Vn` through the `get_v` clamp. -/
def Chip8.wrV (c : Chip8) (n x : Nat) : Chip8 :=
  { c with v := fun j => if j = vIdx n then u8 x else c.v j }

/-- Write one RAM cell (used by the LDD arm and by test fixtures). -/
def Chip8.wrRam (c : Chip8) (a b : Nat) : Chip8 :=
  { c with ram := fun j => if j = a then u8 b else c.ram j }

/-- The sprite-row mask of the DRW arm: `(sprite as u64) >> (px - 56)`
when `px > 56`, else `(sprite as u64) << (56 - px)`.  The right-shift
amount is masked modulo 64 as Rust's release profile does on shift
overflow (reachable only with the wrap quirk and `px ≥ 120`). -/
def spriteShift (sprite px : Nat) : Nat :=
  if 56 < px then sprite >>> ((px - 56) % 64)
  else u64 (sprite <<< (56 - px))

/-- One iteration of the DRW row loop at row `r`: read the sprite byte at
`base + r`, and if the target row `py + r` is on screen, XOR the shifted
sprite into it. -/
def drawRow (c : Chip8) (base px py r : Nat) : Chip8 :=
  let sprite := u8 (c.ram (base + r))
  let cy := py + r
  if cy < 32 then
    { c with screen := fun j =>
        if j = cy then (u64 (c.screen cy)) ^^^ spriteShift sprite px
        else c.screen j }
  else c

/-- The DRW row loop `for r in 0..sz`, rows processed in increasing order. -/
def drawRows (c : Chip8) (base px py : Nat) : Nat → Chip8
  | 0 => c
  | n + 1 => drawRow (drawRows c base px py n) base px py n

/-- `Instruction::execute`, arm by arm in source order.  `none` models a
Rust panic: the out-of-bounds `stk[sp]` index in RET when `sp ≥ 16`, and
the `unimplemented!()` stub in LDK. -/
def Instruction.execute (ins : Instruction) (c : Chip8) : Option Chip8 :=
  match ins with
  | .CLS => some { c with screen := fun _ => 0 }
  | .RET =>
      let sp := u8 c.sp
      if 0 < sp then
        if sp < 16 then
          some { c with pc := u16 (c.stk sp),
                        stk := fun j => if j = sp then 0 else c.stk j,
                        sp := sp - 1 }
        else none
      else some c
  | .JP addr =>
      if u16 addr < 4096 then some { c with pc := u16 addr } else some c
  | .CALL addr =>
      let sp := u8 c.sp
      if sp < 16 then
        some { c with stk := fun j => if j = sp then u16 c.pc else c.stk j,
                      pc := u16 addr,
                      sp := sp + 1 }
      else some c
  | .SEB x kk =>
      if c.rdV x = u8 kk then some { c with pc := u16 (c.pc + 2) } else some c
  | .SNEB x kk =>
      if c.rdV x ≠ u8 kk then some { c with pc := u16 (c.pc + 2) } else some c
  | .SEV x y =>
      if c.rdV x = c.rdV y then some { c with pc := u16 (c.pc + 2) } else some c
  | .LDB x kk => some (c.wrV x (u8 kk))
  | .ADDB x kk => some (c.wrV x (c.rdV x + u8 kk))
  | .LDV x y => some (c.wrV x (c.rdV y))
  | .OR x y => some (c.wrV x (c.rdV x ||| c.rdV y))
  | .AND x y => some (c.wrV x (c.rdV x &&& c.rdV y))
  | .XOR x y => some (c.wrV x (c.rdV x ^^^ c.rdV y))
  | .ADDC x y =>
      let a := c.rdV x
      let b := c.rdV y
      let c1 := c.wrV x (a + b)
      some (c1.wrV 15 (if 256 ≤ a + b then 1 else 0))
  | .SUB x y =>
      let a := c.rdV x
      let b := c.rdV y
      let c1 := c.wrV x (a + 256 - b)
      some (c1.wrV 15 (if a < b then 0 else 1))
  | .SHR x y =>
      if c.hp_shift then
        let c1 := c.wrV 15 (c.rdV x &&& 1)
        some (c1.wrV x (c1.rdV x >>> 1))
      else
        let c1 := c.wrV 15 (c.rdV y &&& 1)
        some (c1.wrV x (c1.rdV y >>> 1))
  | .SUBN x y =>
      let a := c.rdV x
      let b := c.rdV y
      let c1 := c.wrV x (b + 256 - a)
      some (c1.wrV 15 (if b < a then 0 else 1))
  | .SHL x y =>
      if c.hp_shift then
        let c1 := c.wrV 15 (c.rdV x >>> 7)
        some (c1.wrV x (c1.rdV x <<< 1))
      else
        let c1 := c.wrV 15 (c.rdV y >>> 7)
        some (c1.wrV x (c1.rdV y <<< 1))
  | .SNEV x y =>
      if c.rdV x ≠ c.rdV y then some { c with pc := u16 (c.pc + 2) } else some c
  | .LDI addr =>
      if u16 addr < 4096 then some { c with i := u16 addr } else some c
  | .JPV addr => some { c with pc := u16 (u16 addr + u8 (c.v 0)) }
  | .RND x kk =>
      let r := u8 (c.rng c.rngK)
      let c1 := c.wrV x (r &&& u8 kk)
      some { c1 with rngK := c.rngK + 1 }
  | .DRW x y n =>
      let base := u16 c.i
      let sz := u8 n
      if 0 < sz ∧ base + sz ≤ 4096 then
        let px := if c.wrap_tex then c.rdV x else c.rdV x % 64
        let py := if c.wrap_tex then c.rdV y else c.rdV y % 32
        some (drawRows (c.wrV 15 0) base px py sz)
      else some c
  | .SKP _ => some c
  | .SKNP _ => some { c with pc := u16 (c.pc + 2) }
  | .LDVD x => some (c.wrV x (u8 c.dt))
  | .LDK _ => none
  | .LDDV x => some { c with dt := c.rdV x }
  | .LDSV x => some { c with st := c.rdV x }
  | .ADDI x => some { c with i := u16 (c.i + c.rdV x) }
  | .LDIS x => some { c with i := u16 (0x050 + u8 (c.rdV x * 5)) }
  | .LDD x =>
      let base := u16 c.i
      if base + 2 < 4096 then
        let num := c.rdV x
        some (((c.wrRam base (num / 100)).wrRam (base + 1) (num / 10 % 10)).wrRam
          (base + 2) (num % 10))
      else some c
  | .LDMV x =>
      let base := u16 c.i
      let space := u8 x
      if base + space < 4096 ∧ space < 16 then
        let c1 := { c with ram := fun j =>
          if base ≤ j ∧ j ≤ base + space then u8 (c.v (j - base)) else c.ram j }
        some (if c.mem_inc then { c1 with i := u16 (c1.i + space + 1) } else c1)
      else some c
  | .LDVM x =>
      let base := u16 c.i
      let space := u8 x
      if base + space < 4096 ∧ space < 16 then
        let c1 := { c with v := fun j =>
          if j ≤ space then u8 (c.ram (base + j)) else c.v j }
        some (if c.mem_inc then { c1 with i := u16 (c1.i + space + 1) } else c1)
      else some c

/-- The 60 Hz tick count one `Chip8::step` subtracts from the timers.
The Rust expression is `(elapsed.as_secs_f64() * 60.0).max(255.0) as u8`:
with `elapsedTicks` the floor of sixty times the elapsed seconds, the
`.max(255.0)` is the outer `max` and the saturating `f64 → u8` cast is
the outer `min`; the composition is constantly 255. -/
def timerSteps (elapsedTicks : Nat) : Nat := min (max elapsedTicks 255) 255

/-- `Chip8::step`: decay the timers by `timerSteps`, then, when the
program counter and its successor are in RAM bounds, fetch big-endian,
decode, execute, and unconditionally advance the program counter by 2. -/
def Chip8.step (elapsedTicks : Nat) (c : Chip8) : Option Chip8 :=
  let steps := timerSteps elapsedTicks
  let c1 :=
    if 0 < steps then
      { c with dt := if u8 c.dt < steps then 0 else u8 c.dt - steps,
               st := if u8 c.st < steps then 0 else u8 c.st - steps }
    else c
  let idx := u16 c1.pc
  if idx + 1 < 4096 then
    let w := (u8 (c1.ram idx) <<< 8) ||| u8 (c1.ram (idx + 1))
    match Instruction.decode w with
    | some ins => (ins.execute c1).map fun c2 => { c2 with pc := u16 (c2.pc + 2) }
    | none => some { c1 with pc := u16 (c1.pc + 2) }
  else some c1

/-- Execute the same instruction `n` times in sequence. -/
def execN (ins : Instruction) : Nat → Chip8 → Option Chip8
  | 0, c => some c
  | n + 1, c => (ins.execute c).bind (execN ins n)

/-- Zero the registers `V0..Vk` (the intermediate step of the register
round-trip property). -/
def zeroUpTo (c : Chip8) (k : Nat) : Chip8 :=
  { c with v := fun j => if j ≤ k then 0 else c.v j }

/-- A freshly constructed machine, as `Chip8::new` builds it with empty
interpreter and ROM images and an all-zero RNG stream: quirks on,
registers, timers, stack, RAM and screen zeroed, `pc = 0x200`. -/
def baseState : Chip8 :=
  { wrap_tex := true, hp_shift := true, mem_inc := true,
    rng := fun _ => 0, rngK := 0,
    v := fun _ => 0, i := 0, dt := 0, st := 0,
    pc := 0x200, sp := 0,
    stk := fun _ => 0, ram := fun _ => 0, screen := fun _ => 0 }

/-- Fixture for the double-draw experiment: wrap quirk disabled, an
all-ones one-row sprite at RAM `0x300`, the index register pointing at
it, `V0 = V1 = 0`. -/
def sDraw : Chip8 :=
  { (baseState.wrRam 0x300 0xFF) with wrap_tex := false, i := 0x300 }

/-- Fixture with the word `0x1300` (`JP 0x300`) at the initial program
counter `0x200`. -/
def sJump : Chip8 := (baseState.wrRam 0x200 0x13).wrRam 0x201 0x00

/-- Fixture with nonzero timers and the program counter parked at the
last RAM byte, so a step touches only the timers. -/
def sTimer : Chip8 := { baseState with dt := 100, st := 7, pc := 4095 }

/-- Fixture for the register round-trip with the auto-increment quirk
left enabled (the `Chip8::new` default): `V0 = 5`, index at `0x300`. -/
def sAuto : Chip8 := { (baseState.wrV 0 5) with i := 0x300 }

/-- Fixture for the register round-trip with the auto-increment quirk
disabled: `V0 = 7`, index at `0x300`. -/
def sRound : Chip8 :=
  { (baseState.wrV 0 7) with mem_inc := false, i := 0x300 }

/-- Fixture with `V15 = 1` and `V0 = 1`, for ADDC targeting the flag
register. -/
def sCarry : Chip8 := (baseState.wrV 15 1).wrV 0 1

/-- Fixture with `V0 = 0xFF` and `V1 = 1`, the carry example of the
specification. -/
def sWrap : Chip8 := (baseState.wrV 0 0xFF).wrV 1 1

/-- The register clamp is the identity on indices below 16. -/
theorem vIdx_small (n : Nat) (h : n < 16) : vIdx n = n := by
  unfold vIdx u8
  rw [Nat.mod_eq_of_lt (by omega)]
  simp [h]

/-- Reading a register just written returns the written byte. -/
theorem rdV_wrV_self (c : Chip8) (n x : Nat) : (c.wrV n x).rdV n = u8 x := by
  unfold Chip8.rdV Chip8.wrV u8
  simp

/-- Writing one register leaves reads of a different register unchanged. -/
theorem rdV_wrV_ne (c : Chip8) (m n x : Nat) (h : vIdx n ≠ vIdx m) :
    (c.wrV m x).rdV n = c.rdV n := by
  unfold Chip8.rdV Chip8.wrV
  simp [h]

/-- C1: with the wrap quirk disabled, drawing the all-ones one-row sprite
at `(V0,V1) = (0,0)` lights the eight leftmost pixels of screen row 0, and
drawing it again toggles them back off — but `V15` is `0`, not `1`, after
the second draw: the DRW arm zeroes `V15` up front and never computes a
collision, so the collision half of the claim fails on the code. -/
theorem drw_collision_flag_unset :
    ((Instruction.execute (.DRW 0 1 1) sDraw).map
      (fun c => (c.screen 0, c.rdV 15)) = some (0xFF <<< 56, 0))
  ∧ (((Instruction.execute (.DRW 0 1 1) sDraw).bind
      (Instruction.execute (.DRW 0 1 1))).map
      (fun c => (c.screen 0, c.rdV 15)) = some (0, 0)) := by decide

/-- C2: from the fresh machine (`pc = 0x200`), `CALL 0x300` followed by
`RET` brings the stack pointer back to 0 but leaves the program counter
at 0, not at its pre-sequence value: CALL stores the return address in
`stk[sp]` and increments `sp`, while RET reads `stk[sp]` before
decrementing, i.e. the slot one above the pushed address, so the claimed
stack balance fails on the code. -/
theorem call_ret_loses_pc :
    baseState.pc = 0x200
  ∧ ((Instruction.execute (.CALL 0x300) baseState).bind
      (Instruction.execute .RET)).map (fun c => (c.pc, c.sp)) = some (0, 0) := by
  exact ⟨rfl, by decide⟩

/-- C3: a step whose fetched word decodes to `JP 0x300` ends with the
program counter at `0x302`, not `0x300`: `Chip8::step` adds 2 to the
program counter unconditionally after executing every instruction, so
jumps do not bypass the generic advance. -/
theorem step_jp_double_advance :
    Instruction.decode 0x1300 = some (.JP 0x300)
  ∧ (Chip8.step 0 sJump).map (fun c => c.pc) = some 0x302 := by decide

/-- C4: sixteen consecutive CALLs from the fresh machine all pass the
`sp < 16` guard and leave the stack pointer at 16, past the claimed
bound of 15; the next RET then indexes `stk[16]`, out of bounds of the
16-entry stack, which is a panic (modelled `none`) — so the claimed
crash-free no-op discipline fails on the code. -/
theorem stack_overflow_then_ret_crash :
    (execN (.CALL 0x300) 16 baseState).map (fun c => c.sp) = some 16
  ∧ (execN (.CALL 0x300) 16 baseState).bind (Instruction.execute .RET) = none := by
  exact ⟨by decide, rfl⟩

/-- C5: the word `0xF00A` decodes to the LDK instruction, and executing
LDK on any state — here the fresh machine — is the `unimplemented!()`
stub, an unconditional panic (modelled `none`), so the claim that every
decoded instruction executes without crashing fails on the code. -/
theorem ldk_unconditional_crash :
    Instruction.decode 0xF00A = some (.LDK 0)
  ∧ Instruction.execute (.LDK 0) baseState = none := by
  exact ⟨by decide, rfl⟩

/-- C6 counterexample: with the auto-increment quirk enabled (the
constructor default), storing `V0 = 5` with `LDMV 0`, zeroing `V0`, and
loading with `LDVM 0` yields `V0 = 0`, not the original 5: LDMV advanced
the index register from `0x300` to `0x301`, so LDVM read the following,
untouched memory cell. -/
theorem ldmv_ldvm_autoinc_cex :
    sAuto.rdV 0 = 5 ∧ sAuto.mem_inc = true
  ∧ (((Instruction.execute (.LDMV 0) sAuto).map (fun c => zeroUpTo c 0)).bind
      (Instruction.execute (.LDVM 0))).map (fun c => c.rdV 0) = some 0 := by decide

/-- C6 amended: with the auto-increment quirk disabled, for every
`k < 16` and every state whose memory window `I..I+k` is in bounds,
executing `LDMV k`, zeroing `V0..Vk`, then executing `LDVM k` restores
`V0..Vk` to their original values. -/
theorem ldmv_ldvm_roundtrip (k : Nat) (s : Chip8) (hk : k < 16)
    (hm : s.mem_inc = false) (hb : u16 s.i + k < 4096) :
    ∃ s', ((Instruction.execute (.LDMV k) s).map (fun c => zeroUpTo c k)).bind
        (Instruction.execute (.LDVM k)) = some s'
      ∧ ∀ j, j ≤ k → s'.rdV j = s.rdV j := by
  have hk8 : u8 k = k := by unfold u8; omega
  have hgg : u16 s.i + k < 4096 ∧ k < 16 := ⟨hb, hk⟩
  simp only [Instruction.execute, hk8, if_pos hgg, hm, Bool.false_eq_true, if_false,
    Option.map_some', zeroUpTo, Option.some_bind]
  refine ⟨_, rfl, ?_⟩
  intro j hj
  have hj16 : j < 16 := by omega
  unfold Chip8.rdV
  rw [vIdx_small j hj16]
  dsimp only
  rw [if_pos hj]
  rw [if_pos (⟨Nat.le_add_right _ _, by omega⟩ :
    u16 s.i ≤ u16 s.i + j ∧ u16 s.i + j ≤ u16 s.i + k)]
  have hidx : u16 s.i + j - u16 s.i = j := by omega
  rw [hidx]
  unfold u8
  omega

/-- C6 witness: the round-trip theorem applied at `k = 0` on a concrete
state with the auto-increment quirk disabled, `V0 = 7` and `I = 0x300`. -/
theorem ldmv_ldvm_roundtrip_witness :
    ∃ s', ((Instruction.execute (.LDMV 0) sRound).map (fun c => zeroUpTo c 0)).bind
        (Instruction.execute (.LDVM 0)) = some s'
      ∧ ∀ j, j ≤ 0 → s'.rdV j = sRound.rdV j :=
  ldmv_ldvm_roundtrip 0 sRound (by decide) (by decide) (by decide)

/-- C7: the tick count subtracted from the timers is 255 even when a
single 60 Hz tick has elapsed — the Rust clamp `.max(255.0)` is inverted,
and the saturating cast then pins the count at 255 — so a step after
1/60 s drops `delayTimer` from 100 and `soundTimer` from 7 straight to 0
instead of decrementing each by exactly one tick. -/
theorem timer_decay_always_255 :
    timerSteps 1 = 255
  ∧ (Chip8.step 1 sTimer).map (fun c => (c.dt, c.st)) = some (0, 0) := by decide

/-- C8 counterexample: with `V15 = 1` and `V0 = 1`, executing
`ADDC(15, 0)` leaves `V15 = 0` — the not-carried flag — not the 8-bit
sum `(1 + 1) % 256 = 2` the claim demands for every destination
register, so the claim fails at `x = 15`. -/
theorem addc_flag_register_cex :
    sCarry.rdV 15 = 1 ∧ sCarry.rdV 0 = 1
  ∧ (Instruction.execute (.ADDC 15 0) sCarry).map (fun c => c.rdV 15)
      = some 0 := by decide

/-- C8 amended: for every destination register `x` other than the flag
register (`x < 15`) and every source `y` and state, ADDC stores the
8-bit wrapped sum in `Vx` and sets `V15` to 1 exactly when the addition
wrapped, and SUB stores the 8-bit wrapped difference in `Vx` and sets
`V15` to 1 exactly when no borrow occurred. -/
theorem addc_sub_arithmetic (x y : Nat) (hx : x < 15) (s : Chip8) :
    (Instruction.execute (.ADDC x y) s).map (fun c => (c.rdV x, c.rdV 15))
      = some ((s.rdV x + s.rdV y) % 256,
              if 256 ≤ s.rdV x + s.rdV y then 1 else 0)
  ∧ (Instruction.execute (.SUB x y) s).map (fun c => (c.rdV x, c.rdV 15))
      = some ((s.rdV x + 256 - s.rdV y) % 256,
              if s.rdV x < s.rdV y then 0 else 1) := by
  have hnx : vIdx x ≠ vIdx 15 := by
    rw [vIdx_small x (by omega), vIdx_small 15 (by omega)]; omega
  constructor
  · simp only [Instruction.execute, Option.map_some', Option.some.injEq, Prod.mk.injEq]
    refine ⟨?_, ?_⟩
    · rw [rdV_wrV_ne _ _ _ _ hnx, rdV_wrV_self]
      rfl
    · rw [rdV_wrV_self]
      split <;> rfl
  · simp only [Instruction.execute, Option.map_some', Option.some.injEq, Prod.mk.injEq]
    refine ⟨?_, ?_⟩
    · rw [rdV_wrV_ne _ _ _ _ hnx, rdV_wrV_self]
      rfl
    · rw [rdV_wrV_self]
      split <;> rfl

/-- C8 witness: the amended arithmetic theorem applied at `x = 0`,
`y = 1` on the specification's carry example `V0 = 0xFF`, `V1 = 1`. -/
theorem addc_sub_arithmetic_witness :
    (Instruction.execute (.ADDC 0 1) sWrap).map (fun c => (c.rdV 0, c.rdV 15))
      = some ((sWrap.rdV 0 + sWrap.rdV 1) % 256,
              if 256 ≤ sWrap.rdV 0 + sWrap.rdV 1 then 1 else 0)
  ∧ (Instruction.execute (.SUB 0 1) sWrap).map (fun c => (c.rdV 0, c.rdV 15))
      = some ((sWrap.rdV 0 + 256 - sWrap.rdV 1) % 256,
              if sWrap.rdV 0 < sWrap.rdV 1 then 0 else 1) :=
  addc_sub_arithmetic 0 1 (by decide) sWrap

/-- C9: decode is a function (hence deterministic and total — it never
fails, and the unrecognized case is the defined value `none`), it
depends only on the 16 bits of the instruction word, and it maps
`0x00E0` to CLS, `0x1234` to `JP 0x234`, `0xA2F0` to `LDI 0x2F0` and
`0x6A05` to `LDB V10, 0x05`. -/
theorem decode_total_and_values :
    (∀ w : Nat, Instruction.decode w = Instruction.decode (w % 65536))
  ∧ Instruction.decode 0x00E0 = some .CLS
  ∧ Instruction.decode 0x1234 = some (.JP 0x234)
  ∧ Instruction.decode 0xA2F0 = some (.LDI 0x2F0)
  ∧ Instruction.decode 0x6A05 = some (.LDB 10 5) := by
  refine ⟨fun w => ?_, by decide, by decide, by decide, by decide⟩
  show decodeW (u16 w) = decodeW (u16 (w % 65536))
  have h : u16 w = u16 (w % 65536) := by unfold u16; omega
  rw [h]

/-- C10: when the destination register is the flag register `V15`,
ADDC, SUB and SUBN leave `V15` holding the carry / not-borrow flag of
the operation, not the 8-bit arithmetic result, because each arm writes
the flag into `V15` after storing the result there. -/
theorem flag_overwrites_arithmetic_result (y : Nat) (s : Chip8) :
    (Instruction.execute (.ADDC 15 y) s).map (fun c => c.rdV 15)
      = some (if 256 ≤ s.rdV 15 + s.rdV y then 1 else 0)
  ∧ (Instruction.execute (.SUB 15 y) s).map (fun c => c.rdV 15)
      = some (if s.rdV 15 < s.rdV y then 0 else 1)
  ∧ (Instruction.execute (.SUBN 15 y) s).map (fun c => c.rdV 15)
      = some (if s.rdV y < s.rdV 15 then 0 else 1) := by
  refine ⟨?_, ?_, ?_⟩ <;>
  · simp only [Instruction.execute, Option.map_some', Option.some.injEq]
    rw [rdV_wrV_self]
    split <;> rfl
